import Mathlib

/-!
Verification development for the TickTick → org/denote converter
(`ticktick-to-org-denote-converter.js`).  The JavaScript pipeline is embedded
shallowly: record fields are `Option String` (a missing CSV field is `none`),
JavaScript truthiness and strict equality are modelled explicitly, the
recursive tree walks carry an explicit fuel (the JavaScript functions have no
cycle check, so a run that exhausts every fuel corresponds to a
non-terminating run), and the `Date` / string builtins used by the converter
are modelled as executable Lean functions.
-/

set_option maxRecDepth 20000

namespace TickTick

/-- JavaScript truthiness for a string-valued record field: `undefined`
(`none`) and the empty string are falsy, every other string is truthy. -/
def truthy : Option String → Bool
  | none => false
  | some s => s != ""

/-- JavaScript `field || dflt` for a string field with a string default. -/
def jsOr (o : Option String) (d : String) : String :=
  if truthy o then o.getD "" else d

/-- ASCII digit character; used by the model of `Date.prototype.toISOString`. -/
def digitChar (n : Nat) : Char := Char.ofNat (48 + n % 10)

/-- Two-digit zero-padded decimal rendering (for values below 100). -/
def d2 (n : Nat) : List Char := [digitChar (n / 10), digitChar n]

/-- Three-digit zero-padded decimal rendering (for values below 1000). -/
def d3 (n : Nat) : List Char := [digitChar (n / 100), digitChar (n / 10), digitChar n]

/-- Four-digit zero-padded decimal rendering (for values below 10000). -/
def d4 (n : Nat) : List Char :=
  [digitChar (n / 1000), digitChar (n / 100), digitChar (n / 10), digitChar n]

/-- Six-digit zero-padded decimal rendering (expanded-year ISO format). -/
def d6 (n : Nat) : List Char :=
  [digitChar (n / 100000), digitChar (n / 10000), digitChar (n / 1000),
   digitChar (n / 100), digitChar (n / 10), digitChar n]

/-- Proleptic Gregorian civil date from a count of days since 1970-01-01
(Howard Hinnant's `civil_from_days`); this is the calendar used by the
JavaScript `Date` builtin in UTC. -/
def civilFromDays (z0 : Int) : Int × Nat × Nat :=
  let z := z0 + 719468
  let era : Int := z.ediv 146097
  let doe : Int := z - era * 146097
  let yoe : Int := (doe - doe.ediv 1460 + doe.ediv 36524 - doe.ediv 146096).ediv 365
  let y : Int := yoe + era * 400
  let doy : Int := doe - (365 * yoe + yoe.ediv 4 - yoe.ediv 100)
  let mp : Int := (5 * doy + 2).ediv 153
  let d : Int := doy - (153 * mp + 2).ediv 5 + 1
  let m : Int := mp + (if mp < 10 then 3 else -9)
  (y + (if m ≤ 2 then 1 else 0), m.toNat, d.toNat)

/-- Days since 1970-01-01 of a proleptic Gregorian civil date
(Howard Hinnant's `days_from_civil`). -/
def daysFromCivil (y : Int) (m d : Nat) : Int :=
  let y' : Int := y - (if m ≤ 2 then 1 else 0)
  let era : Int := y'.ediv 400
  let yoe : Int := y' - era * 400
  let doy : Int := (153 * ((m : Int) + (if 2 < m then -3 else 9)) + 2).ediv 5 + d - 1
  let doe : Int := yoe * 365 + yoe.ediv 4 - yoe.ediv 100 + doy
  era * 146097 + doe - 719468

/-- UTC calendar components (year, month, day, hour, minute, second,
millisecond) of an epoch-milliseconds timestamp. -/
def utcParts (t : Int) : Int × Nat × Nat × Nat × Nat × Nat × Nat :=
  let days := t.ediv 86400000
  let ms := (t.emod 86400000).toNat
  let c := civilFromDays days
  (c.1, c.2.1, c.2.2, ms / 3600000, ms / 60000 % 60, ms / 1000 % 60, ms % 1000)

/-- Models `Date.prototype.toISOString`: renders the UTC components as
`YYYY-MM-DDTHH:MM:SS.sssZ`, falling back to the expanded six-digit year form
(with an explicit sign) when the year lies outside 0–9999, exactly as the
ECMAScript builtin does. -/
def toISOStringModel (t : Int) : String :=
  match utcParts t with
  | (y, mo, d, h, mi, s, ms) =>
    if 0 ≤ y ∧ y ≤ 9999 then
      String.mk (d4 y.toNat ++ '-' :: d2 mo ++ '-' :: d2 d ++ 'T' :: d2 h ++
        ':' :: d2 mi ++ ':' :: d2 s ++ '.' :: d3 ms ++ ['Z'])
    else
      String.mk ((if y < 0 then '-' else '+') :: d6 y.natAbs ++ '-' :: d2 mo ++
        '-' :: d2 d ++ 'T' :: d2 h ++ ':' :: d2 mi ++ ':' :: d2 s ++ '.' ::
        d3 ms ++ ['Z'])

/-- First-occurrence replacement on character lists; models JavaScript
`String.prototype.replace` with a plain (non-empty) string pattern. -/
def replFirst (pat rep : List Char) : List Char → List Char
  | [] => []
  | c :: cs =>
    if pat.isPrefixOf (c :: cs) then rep ++ (c :: cs).drop pat.length
    else c :: replFirst pat rep cs

/-- Models JavaScript `s.replace(pat, rep)` for a plain string pattern. -/
def jsReplaceFirst (s pat rep : String) : String :=
  String.mk (replFirst pat.data rep.data s.data)

/-- Models JavaScript `s.slice(a, b)` for nonnegative bounds. -/
def jsSlice (s : String) (a b : Nat) : String :=
  String.mk ((s.data.drop a).take (b - a))

/-- Models JavaScript `s.split(c)[0]`: the characters before the first
occurrence of `c` (the whole string when `c` does not occur). -/
def jsSplitHead (s : String) (c : Char) : String :=
  String.mk (s.data.takeWhile (fun x => x != c))

/-- Split a character list on a separator character (keeping empty pieces),
as JavaScript `String.prototype.split` with a one-character separator does. -/
def splitChar (sep : Char) : List Char → List (List Char)
  | [] => [[]]
  | c :: cs =>
    let r := splitChar sep cs
    if c == sep then [] :: r
    else
      match r with
      | h :: t => (c :: h) :: t
      | [] => [[c]]

/-- Models JavaScript `s.split(sep)` for a one-character separator. -/
def jsSplit (sep : Char) (s : String) : List String :=
  (splitChar sep s.data).map String.mk

/-- Numeric value of a digit-character list (JavaScript `parseInt` on an
all-digit string). -/
def digitsToNat (ds : List Char) : Nat :=
  ds.foldl (fun a c => a * 10 + (c.toNat - 48)) 0

/-- Numeric value of an all-digit non-empty string (the semantics of
`String.toNat?`, restated structurally). -/
def strToNat? (s : String) : Option Nat :=
  if s.data ≠ [] ∧ s.data.all Char.isDigit then some (digitsToNat s.data) else none

/-- Read exactly `k` ASCII digits from the front of a character list. -/
def readDigits : Nat → Nat → List Char → Option (Nat × List Char)
  | 0, acc, cs => some (acc, cs)
  | k + 1, acc, c :: cs =>
    if c.isDigit then readDigits k (acc * 10 + (c.toNat - 48)) cs else none
  | _ + 1, _, [] => none

/-- Consume one expected character. -/
def expectChar (c : Char) : List Char → Option (List Char)
  | x :: xs => if x == c then some xs else none
  | [] => none

/-- Length in days of a month of the proleptic Gregorian calendar. -/
def daysInMonth (y : Int) (m : Nat) : Nat :=
  if m = 2 then (if y.emod 4 = 0 ∧ (y.emod 100 ≠ 0 ∨ y.emod 400 = 0) then 29 else 28)
  else if m = 4 ∨ m = 6 ∨ m = 9 ∨ m = 11 then 30 else 31

/-- Parse the zone designator of an ECMAScript date-time string: `Z`, or
`±HH:MM`; returns the offset in minutes east of UTC. -/
def parseZone : List Char → Option Int
  | ['Z'] => some 0
  | '+' :: cs => do
    let (h, cs1) ← readDigits 2 0 cs
    let cs2 ← expectChar ':' cs1
    let (m, cs3) ← readDigits 2 0 cs2
    if cs3 = [] ∧ h ≤ 23 ∧ m ≤ 59 then some ((h : Int) * 60 + m) else none
  | '-' :: cs => do
    let (h, cs1) ← readDigits 2 0 cs
    let cs2 ← expectChar ':' cs1
    let (m, cs3) ← readDigits 2 0 cs2
    if cs3 = [] ∧ h ≤ 23 ∧ m ≤ 59 then some (-((h : Int) * 60 + m)) else none
  | _ => none

/-- Parse the time-of-day part (after the `T`) of an ECMAScript date-time
string: `HH:MM`, `HH:MM:SS` or `HH:MM:SS.sss`, followed by a zone designator;
returns hours, minutes, seconds, milliseconds and the zone offset. -/
def parseTime (cs : List Char) : Option (Nat × Nat × Nat × Nat × Int) := do
  let (h, cs1) ← readDigits 2 0 cs
  let cs2 ← expectChar ':' cs1
  let (mi, cs3) ← readDigits 2 0 cs2
  match cs3 with
  | ':' :: cs4 => do
    let (s, cs5) ← readDigits 2 0 cs4
    match cs5 with
    | '.' :: cs6 => do
      let (ms, cs7) ← readDigits 3 0 cs6
      let off ← parseZone cs7
      some (h, mi, s, ms, off)
    | _ => do
      let off ← parseZone cs5
      some (h, mi, s, 0, off)
  | _ => do
    let off ← parseZone cs3
    some (h, mi, 0, 0, off)

/-- Validate the parsed calendar fields and build the epoch-milliseconds
value; `rest` is what follows the date part (empty, or `T` plus a time). -/
def finishDate (y : Int) (m d : Nat) (rest : List Char) : Option Int :=
  if 1 ≤ m ∧ m ≤ 12 ∧ 1 ≤ d ∧ d ≤ daysInMonth y m then
    match rest with
    | [] => some (daysFromCivil y m d * 86400000)
    | 'T' :: cs => do
      let (h, mi, s, ms, off) ← parseTime cs
      if (h ≤ 23 ∧ mi ≤ 59 ∧ s ≤ 59) ∨ (h = 24 ∧ mi = 0 ∧ s = 0 ∧ ms = 0) then
        some (daysFromCivil y m d * 86400000 +
          ((h : Int) * 3600000 + (mi : Int) * 60000 + (s : Int) * 1000 + ms) -
          off * 60000)
      else none
    | _ => none
  else none

/-- Models `new Date(string)` / `Date.parse` for the ECMAScript Date Time
String Format with a four-digit year and, when a time is present, an explicit
zone designator (`Z` or `±HH:MM`); returns epoch milliseconds.  Date-only
forms are UTC.  A date-time without a zone designator is interpreted by
JavaScript in the host's local zone; such strings (and every other format)
are treated as unparseable here, i.e. as an Invalid Date. -/
def parseJsDate (str : String) : Option Int := do
  let cs := str.data
  let (y, cs1) ← readDigits 4 0 cs
  match cs1 with
  | '-' :: cs2 => do
    let (m, cs3) ← readDigits 2 0 cs2
    match cs3 with
    | '-' :: cs4 => do
      let (d, cs5) ← readDigits 2 0 cs4
      finishDate y m d cs5
    | _ => finishDate y m 1 cs3
  | _ => finishDate y 1 1 cs1

/-- Embedding of `convertDateForOrg` (converter lines 39–50): falsy input
gives `null`; otherwise `new Date(raw).toISOString().replace('T', ' ')
.slice(0, 16)`, and when `toISOString` throws (Invalid Date) the `catch`
returns the raw text unchanged. -/
def convertDateForOrg (tickTickDate : Option String) : Option String :=
  if truthy tickTickDate = false then none
  else
    let raw := tickTickDate.getD ""
    match parseJsDate raw with
    | some t => some (jsSlice (jsReplaceFirst (toISOStringModel t) "T" " ") 0 16)
    | none => some raw

/-- ASCII-wise model of `String.prototype.toUpperCase` (the converter only
compares against ASCII keywords). -/
def jsToUpper (s : String) : String := String.mk (s.data.map Char.toUpper)

/-- Is `pat` a contiguous sublist of the other list? -/
def containsSub (pat : List Char) : List Char → Bool
  | [] => pat.isEmpty
  | c :: cs => pat.isPrefixOf (c :: cs) || containsSub pat cs

/-- Models `String.prototype.includes`: substring containment. -/
def strIncludes (s pat : String) : Bool := containsSub pat.data s.data

/-- The converter's `repeatMap` (lines 57–63), in `Object.entries` order
(insertion order: none of the keys is an array-index string). -/
def repeatMapKeys : List (String × String) :=
  [("DAILY", "+1d"), ("WEEKDAY", ".+1d"), ("WEEKLY", "+1w"),
   ("MONTHLY", "+1m"), ("YEARLY", "+1y")]

/-- Characters matched by the JavaScript regex class `\s` (ASCII part; the
Unicode space characters are irrelevant to this source). -/
def isJsSpace (c : Char) : Bool :=
  c == ' ' || c == '\t' || c == '\n' || c == '\r' || c == '\x0b' || c == '\x0c'

/-- Maximal leading digit run of a character list (regex `\d+`, greedy). -/
def takeDigits : List Char → List Char × List Char
  | [] => ([], [])
  | c :: cs =>
    if c.isDigit then
      let p := takeDigits cs
      (c :: p.1, p.2)
    else ([], c :: cs)

/-- Drop a maximal run of regex whitespace (`\s*`, greedy). -/
def dropSpacesRx : List Char → List Char
  | [] => []
  | c :: cs => if isJsSpace c then dropSpacesRx cs else c :: cs

/-- Case-insensitive prefix test (ASCII), for `/.../i` regex word matching. -/
def ciStartsWith : List Char → List Char → Bool
  | [], _ => true
  | _ :: _, [] => false
  | p :: ps, c :: cs => (Char.toUpper c == Char.toUpper p) && ciStartsWith ps cs

/-- Unit words of the regex `/(\d+)\s*(DAY|WEEK|MONTH|YEAR)S?/i`. -/
def unitNames : List (List Char) :=
  [['D','A','Y'], ['W','E','E','K'], ['M','O','N','T','H'], ['Y','E','A','R']]

/-- Try the numbered-recurrence regex at one position: greedy digits, greedy
whitespace, then a unit word (case-insensitively); returns the captured digit
characters and the first character of the matched unit text, as the source
uses both (`+${number}${unit[0].toLowerCase()}`). -/
def tryNumberedAt (cs : List Char) : Option (List Char × Char) :=
  let p := takeDigits cs
  if p.1.isEmpty then none
  else
    let r2 := dropSpacesRx p.2
    if unitNames.any (fun u => ciStartsWith u r2) then
      match r2 with
      | c :: _ => some (p.1, c.toLower)
      | [] => none
    else none

/-- Left-to-right scan of `/(\d+)\s*(DAY|WEEK|MONTH|YEAR)S?/i` (first match
wins, one-character advance on failure, as regex scanning does). -/
def findNumberedUnit : List Char → Option (List Char × Char)
  | [] => none
  | c :: cs =>
    match tryNumberedAt (c :: cs) with
    | some r => some r
    | none => findNumberedUnit cs

/-- Weekday words of the regex
`/(EVERY\s)?(\d+\s)?(MONDAY|TUESDAY|WEDNESDAY|THURSDAY|FRIDAY|SATURDAY|SUNDAY)/i`. -/
def weekdayNames : List (List Char) :=
  [['M','O','N','D','A','Y'], ['T','U','E','S','D','A','Y'],
   ['W','E','D','N','E','S','D','A','Y'], ['T','H','U','R','S','D','A','Y'],
   ['F','R','I','D','A','Y'], ['S','A','T','U','R','D','A','Y'],
   ['S','U','N','D','A','Y']]

/-- Does a weekday word start (case-insensitively) at this position? -/
def weekdayAt (cs : List Char) : Bool :=
  weekdayNames.any (fun w => ciStartsWith w cs)

/-- Try to match the optional group `(\d+\s)` at this position. -/
def numThen (cs : List Char) : Option (Nat × List Char) :=
  let p := takeDigits cs
  if p.1.isEmpty then none
  else
    match p.2 with
    | c :: r2 => if isJsSpace c then some (digitsToNat p.1, r2) else none
    | [] => none

/-- Try to match the optional group `(EVERY\s)` at this position. -/
def everyThen (cs : List Char) : Option (List Char) :=
  if ciStartsWith ['E','V','E','R','Y'] cs then
    match cs.drop 5 with
    | c :: r => if isJsSpace c then some r else none
    | [] => none
  else none

/-- Try the weekday regex at one position, with the regex backtracking order
over the two optional groups; returns the count `n` (`parseInt(number)` if
the number group matched, else 1). -/
def tryWeekdayPos (cs : List Char) : Option Nat :=
  let tryNW : List Char → Option Nat := fun cs2 =>
    match numThen cs2 with
    | some (n, r) =>
      if weekdayAt r then some n
      else if weekdayAt cs2 then some 1 else none
    | none => if weekdayAt cs2 then some 1 else none
  match everyThen cs with
  | some r =>
    match tryNW r with
    | some n => some n
    | none => tryNW cs
  | none => tryNW cs

/-- Left-to-right scan of the weekday regex (first match wins). -/
def findWeekday : List Char → Option Nat
  | [] => none
  | c :: cs =>
    match tryWeekdayPos (c :: cs) with
    | some n => some n
    | none => findWeekday cs

/-- Embedding of `convertRecurrenceToOrg` (lines 52–90): falsy input gives
`null`; otherwise the fixed keyword table is scanned in order against the
upper-cased text by substring containment, then the numbered pattern, then
the weekday pattern, and finally the raw text is returned unchanged. -/
def convertRecurrenceToOrg (rep : Option String) : Option String :=
  if truthy rep = false then none
  else
    let raw := rep.getD ""
    let up := jsToUpper raw
    match repeatMapKeys.find? (fun kv => strIncludes up kv.1) with
    | some kv => some kv.2
    | none =>
      match findNumberedUnit raw.data with
      | some (ds, u) => some ("+" ++ String.mk ds ++ String.mk [u])
      | none =>
        match findWeekday raw.data with
        | some n => some (".+" ++ Nat.repr n ++ "w")
        | none => some raw

/-- Model of `normalize('NFD')` followed by removal of the combining marks
U+0300–U+036F, as a base-character mapping.  Only the Latin-1 letters that
can occur in the repository's data are tabulated; other characters are left
unchanged. -/
def foldDiacritic (c : Char) : Char :=
  match c with
  | 'à' | 'á' | 'â' | 'ã' | 'ä' | 'å' => 'a'
  | 'è' | 'é' | 'ê' | 'ë' => 'e'
  | 'ì' | 'í' | 'î' | 'ï' => 'i'
  | 'ò' | 'ó' | 'ô' | 'õ' | 'ö' => 'o'
  | 'ù' | 'ú' | 'û' | 'ü' => 'u'
  | 'ý' | 'ÿ' => 'y'
  | 'ñ' => 'n'
  | 'ç' => 'c'
  | 'À' | 'Á' | 'Â' | 'Ã' | 'Ä' | 'Å' => 'A'
  | 'È' | 'É' | 'Ê' | 'Ë' => 'E'
  | 'Ì' | 'Í' | 'Î' | 'Ï' => 'I'
  | 'Ò' | 'Ó' | 'Ô' | 'Õ' | 'Ö' => 'O'
  | 'Ù' | 'Ú' | 'Û' | 'Ü' => 'U'
  | 'Ý' => 'Y'
  | 'Ñ' => 'N'
  | 'Ç' => 'C'
  | _ => c

/-- Is the character in the class `[a-z0-9]`? -/
def isLowerAlnum (c : Char) : Bool :=
  ('a' ≤ c && c ≤ 'z') || ('0' ≤ c && c ≤ '9')

/-- Collapse every run of hyphens to a single hyphen (the source's global
hyphen-run replacement on line 112). -/
def collapseDashes : List Char → List Char
  | [] => []
  | '-' :: cs =>
    match collapseDashes cs with
    | '-' :: r => '-' :: r
    | r => '-' :: r
  | c :: cs => c :: collapseDashes cs

/-- Strip a single leading and trailing hyphen (regex `/^-|-$/g`). -/
def trimDashes (cs : List Char) : List Char :=
  let cs1 := match cs with
    | '-' :: r => r
    | r => r
  match cs1.reverse with
  | '-' :: r => r.reverse
  | _ => cs1

/-- The title-sanitising chain of `createDenoteFilename` (lines 107–113):
diacritic folding, lower-casing, `[^a-z0-9]` → `-`, collapse `-` runs, trim
edge hyphens. -/
def slugifyTitle (title : String) : String :=
  String.mk (trimDashes (collapseDashes
    ((title.data.map foldDiacritic).map Char.toLower |>.map
      (fun c => if isLowerAlnum c then c else '-'))))

/-- The tag-sanitising chain of `createDenoteFilename` (lines 118–126):
diacritic folding, lower-casing, strip everything outside `[a-z0-9]`. -/
def keywordizeTag (tag : String) : String :=
  String.mk (((tag.data.map foldDiacritic).map Char.toLower).filter isLowerAlnum)

/-- The compact date token of `createDenoteFilename` (line 96):
`toISOString().replace(/[-:]/g, '').split('.')[0]` (the final
`.replace('T', 'T')` is the identity). -/
def denoteDateToken (t : Int) : String :=
  jsSplitHead (String.mk ((toISOStringModel t).data.filter
    (fun c => c != '-' && c != ':'))) '.'

/-- The date value used by `createDenoteFilename` (line 95):
`new Date(createdDate || Date.now())`; `none` means the `Date` constructor
received an unparseable string, so the subsequent `toISOString()` throws. -/
def jsDateValue (createdDate : Option String) (now : Int) : Option Int :=
  if truthy createdDate then parseJsDate (createdDate.getD "") else some now

/-- Embedding of `createDenoteFilename` (lines 93–133).  `now` models
`Date.now()`, `sig` the `Math.random().toString(36).substring(2, 15)` token
drawn for this call; `none` models the `RangeError` thrown by `toISOString`
on an Invalid Date (the call sites do not catch it). -/
def createDenoteFilename (title : String) (tags : List String)
    (createdDate : Option String) (withSignature : Bool) (sig : String)
    (now : Int) : Option String := do
  let t ← jsDateValue createdDate now
  let dateStr := denoteDateToken t
  let base := if withSignature then dateStr ++ "==" ++ sig else dateStr
  let withTitle := base ++ "--" ++ slugifyTitle title
  let keywords := String.intercalate "_"
    ((tags.map keywordizeTag).filter (fun k => k.length > 0))
  let full := if keywords != "" then withTitle ++ "__" ++ keywords else withTitle
  some (full ++ ".org")

/-- One parsed CSV record.  Each field is the value of the correspondingly
named CSV column (`kind` ↔ `Kind`, `folderName` ↔ `Folder Name`, `listName` ↔
`List Name`, `repeatRule` ↔ `Repeat`, `isChecklist` ↔ `Is Check list`,
`taskId` ↔ `taskId`, `parentId` ↔ `parentId`, the rest as spelled); `none`
models a field that is absent (`undefined`). -/
structure Task where
  kind : Option String := none
  folderName : Option String := none
  listName : Option String := none
  title : Option String := none
  tags : Option String := none
  content : Option String := none
  isChecklist : Option String := none
  startDate : Option String := none
  dueDate : Option String := none
  reminder : Option String := none
  repeatRule : Option String := none
  priority : Option String := none
  status : Option String := none
  createdTime : Option String := none
  completedTime : Option String := none
  taskId : Option String := none
  parentId : Option String := none
  timezone : Option String := none
  deriving DecidableEq

/-- The checklist-membership test of `convertTickTickData` (lines 148–150):
`Kind === "CHECKLIST"`, or a truthy `parentId`, or some record whose
`parentId` is strictly equal to this record's `taskId` (JavaScript `===` on
two possibly-absent fields: `undefined === undefined` is true). -/
def chkCond (data : List Task) (item : Task) : Bool :=
  item.kind == some "CHECKLIST" || truthy item.parentId ||
    data.any (fun child => child.parentId == item.taskId)

/-- Embedding of `findAllDescendants` (lines 161–169), with explicit fuel:
the JavaScript function recurses through `parentId` children with no cycle
check, so `none` (every fuel exhausted) models a non-terminating run. -/
def findAllDescendants : Nat → List Task → Option String → Option (List (Option String))
  | 0, _, _ => none
  | fuel + 1, data, taskId =>
    (data.filter (fun item => item.parentId == taskId)).foldl
      (fun acc child => do
        let l ← acc
        let ds ← findAllDescendants fuel data child.taskId
        some (l ++ child.taskId :: ds))
      (some [])

/-- The `checklistIds` accumulation loop of `convertTickTickData`
(lines 142–158): for every record passing `chkCond`, its `taskId` is added,
and — when the `taskId` is truthy — all its descendants' ids as well.
Membership in the resulting list models `Set.has`. -/
def checklistIdsAux (fuel : Nat) (data : List Task) :
    List Task → List (Option String) → Option (List (Option String))
  | [], acc => some acc
  | item :: rest, acc =>
    if chkCond data item then
      if truthy item.taskId then
        match findAllDescendants fuel data item.taskId with
        | none => none
        | some ds => checklistIdsAux fuel data rest (acc ++ item.taskId :: ds)
      else checklistIdsAux fuel data rest (acc ++ [item.taskId])
    else checklistIdsAux fuel data rest acc

/-- The complete `checklistIds` set of a batch (`none` when some descendant
walk fails to terminate). -/
def checklistIds (fuel : Nat) (data : List Task) : Option (List (Option String)) :=
  checklistIdsAux fuel data data []

/-- `notes` (line 172): records whose `Kind` is strictly `"NOTE"`. -/
def notesOf (data : List Task) : List Task :=
  data.filter (fun task => task.kind == some "NOTE")

/-- `checklistItems` (line 173): records whose `taskId` is in `checklistIds`. -/
def checklistItemsOf (data : List Task) (ids : List (Option String)) : List Task :=
  data.filter (fun task => ids.contains task.taskId)

/-- `regularTasks` (lines 174–176): records that are neither `Kind: NOTE` nor
checklist members. -/
def regularTasksOf (data : List Task) (ids : List (Option String)) : List Task :=
  data.filter (fun task => !(task.kind == some "NOTE") && !(ids.contains task.taskId))

/-- `todoTasks` (line 179). -/
def todoTasksOf (data : List Task) (ids : List (Option String)) : List Task :=
  (regularTasksOf data ids).filter (fun task => task.status == some "0")

/-- `doneTasks` (line 180). -/
def doneTasksOf (data : List Task) (ids : List (Option String)) : List Task :=
  (regularTasksOf data ids).filter (fun task => task.status == some "1")

/-- `archivedTasks` (line 181). -/
def archivedTasksOf (data : List Task) (ids : List (Option String)) : List Task :=
  (regularTasksOf data ids).filter (fun task => task.status == some "2")

/-- `activeTasks` (line 184): the TODO tasks followed by the DONE tasks. -/
def activeTasksOf (data : List Task) (ids : List (Option String)) : List Task :=
  todoTasksOf data ids ++ doneTasksOf data ids

/-- Models `String.prototype.trim` (ASCII whitespace). -/
def jsTrim (s : String) : String :=
  String.mk (((s.data.dropWhile isJsSpace).reverse.dropWhile isJsSpace).reverse)

/-- Replace every maximal whitespace run by one underscore (the source's
global whitespace-run replacement, used for tags); the flag records whether
the previous character was whitespace. -/
def wsCollapse (prevSpace : Bool) : List Char → List Char
  | [] => []
  | c :: cs =>
    if isJsSpace c then
      (if prevSpace then wsCollapse true cs else '_' :: wsCollapse true cs)
    else c :: wsCollapse false cs

/-- `tag.replace` of whitespace runs by `_` (line 233). -/
def wsToUnderscore (s : String) : String := String.mk (wsCollapse false s.data)

/-- The status keyword of `processTasks` (lines 221–224): `"1"` → DONE,
`"2"` → DONE in the archive context and ARCHIVED otherwise, anything else
(including `"0"`) → TODO. -/
def statusKeyword (isArchive : Bool) (task : Task) : String :=
  if task.status == some "1" then "DONE"
  else if task.status == some "2" then (if isArchive then "DONE" else "ARCHIVED")
  else "TODO"

/-- The tag annotation of a task header (lines 232–237): comma-split,
trimmed, whitespace → `_`; appended only when the first tag is non-empty. -/
def tagsAnnotation (task : Task) : String :=
  if truthy task.tags then
    let tags := (jsSplit ',' (task.tags.getD "")).map (fun tag => wsToUnderscore (jsTrim tag))
    if tags.headD "" != "" then " :" ++ String.intercalate ":" tags ++ ":" else ""
  else ""

/-- The recurrence suffix of a scheduling line: space-appended only when the
token is truthy (line 248). -/
def recSuffix (r : Option String) : String :=
  if truthy r then " " ++ r.getD "" else ""

/-- One scheduling line (`SCHEDULED` or `DEADLINE`). -/
def schedLineStr (kw d : String) (r : Option String) : String :=
  "     " ++ kw ++ ": <" ++ d ++ recSuffix r ++ ">\n"

/-- The scheduling lines of a task entry (lines 241–256): when the two
normalized dates are truthy and strictly equal, a single `SCHEDULED` line;
otherwise an optional `SCHEDULED` line and an optional `DEADLINE` line. -/
def schedulingLines (task : Task) : List String :=
  let schedDate := convertDateForOrg task.startDate
  let dueDate := convertDateForOrg task.dueDate
  let recurrence := convertRecurrenceToOrg task.repeatRule
  if truthy schedDate && truthy dueDate && schedDate == dueDate then
    [schedLineStr "SCHEDULED" (schedDate.getD "") recurrence]
  else
    (if truthy schedDate then [schedLineStr "SCHEDULED" (schedDate.getD "") recurrence] else []) ++
    (if truthy dueDate then [schedLineStr "DEADLINE" (dueDate.getD "") recurrence] else [])

/-- The re-indented body of a task entry (lines 259–266): carriage returns
stripped, split on newlines, each line with truthy trim re-emitted. -/
def bodyLines (task : Task) : String :=
  if truthy task.content then
    String.join ((jsSplit '\n' (String.mk ((task.content.getD "").data.filter
        (fun c => c != '\r')))).map
      (fun line => if jsTrim line != "" then "     " ++ jsTrim line ++ "\n" else ""))
  else ""

/-- One property line of the `:PROPERTIES:` block. -/
def propLine (name v : String) : String := "     :" ++ name ++ ": " ++ v ++ "\n"

/-- The `:PROPERTIES:` block of a task entry (lines 269–308). -/
def propsBlock (task : Task) : String :=
  "     :PROPERTIES:\n" ++
  (if truthy task.priority && !(task.priority == some "0") then
    propLine "PRIORITY" (task.priority.getD "") else "") ++
  (if truthy task.reminder then propLine "REMINDER" (task.reminder.getD "") else "") ++
  (if truthy task.repeatRule then
    propLine "REPEAT" (jsOr (convertRecurrenceToOrg task.repeatRule) (task.repeatRule.getD ""))
   else "") ++
  (if truthy task.createdTime then propLine "CREATED" (task.createdTime.getD "") else "") ++
  (if truthy task.completedTime then propLine "COMPLETED" (task.completedTime.getD "") else "") ++
  (if truthy task.timezone then propLine "TIMEZONE" (task.timezone.getD "") else "") ++
  (if truthy task.taskId then propLine "TICKTICK_ID" (task.taskId.getD "") else "") ++
  (if truthy task.parentId then propLine "PARENT_ID" (task.parentId.getD "") else "") ++
  (if task.isChecklist == some "Y" then "     :IS_CHECKLIST: Yes\n" else "") ++
  "     :END:\n\n"

/-- One rendered outline entry of `processTasks` (lines 219–308). -/
def renderTask (isArchive : Bool) (task : Task) : String :=
  "**** " ++ statusKeyword isArchive task ++ " " ++ jsOr task.title "Untitled" ++
  tagsAnnotation task ++ "\n" ++
  String.join (schedulingLines task) ++
  bodyLines task ++
  propsBlock task

/-- Append a task to its list group, creating the group at the end on first
use (the object-property creation of lines 206–209). -/
def upsertInner (ls : List (String × List Task)) (listName : String) (t : Task) :
    List (String × List Task) :=
  match ls with
  | [] => [(listName, [t])]
  | (k, v) :: rest =>
    if k == listName then (k, v ++ [t]) :: rest
    else (k, v) :: upsertInner rest listName t

/-- Append a task to its (folder, list) group, creating missing levels at the
end on first use (lines 199–210). -/
def upsertGrouped (g : List (String × List (String × List Task)))
    (folder listName : String) (t : Task) :
    List (String × List (String × List Task)) :=
  match g with
  | [] => [(folder, [(listName, [t])])]
  | (k, v) :: rest =>
    if k == folder then (k, upsertInner v listName t) :: rest
    else (k, v) :: upsertGrouped rest folder listName t

/-- The `grouped` object of `processTasks` (lines 197–210), as an
insertion-ordered two-level association list (the model treats the object as
a plain own-property map; prototype-chain effects of exotic folder names are
outside its scope). -/
def buildGrouped (tasks : List Task) : List (String × List (String × List Task)) :=
  tasks.foldl (fun g task =>
    upsertGrouped g (jsOr task.folderName "Inbox") (jsOr task.listName "Default") task) []

/-- Is the string a canonical array-index property key (the canonical decimal
form of an integer below 2^32 − 1)?  Such keys are enumerated first, in
ascending numeric order, by JavaScript `for...in`. -/
def jsArrayIndexKey (s : String) : Bool :=
  match strToNat? s with
  | some n => Nat.repr n == s && n < 4294967295
  | none => false

/-- Numeric value of an array-index key. -/
def keyNat (s : String) : Nat := (strToNat? s).getD 0

/-- Insert into a list sorted ascending by `keyNat`. -/
def insertByNat {α : Type} (p : String × α) : List (String × α) → List (String × α)
  | [] => [p]
  | q :: rest =>
    if keyNat p.1 < keyNat q.1 then p :: q :: rest else q :: insertByNat p rest

/-- Insertion sort ascending by `keyNat`. -/
def sortByNat {α : Type} : List (String × α) → List (String × α)
  | [] => []
  | p :: rest => insertByNat p (sortByNat rest)

/-- JavaScript `for...in` enumeration order over a plain object's own keys:
array-index keys first in ascending numeric order, then the remaining keys in
insertion order. -/
def enumOrder {α : Type} (g : List (String × α)) : List (String × α) :=
  sortByNat (g.filter (fun p => jsArrayIndexKey p.1)) ++
    g.filter (fun p => !jsArrayIndexKey p.1)

/-- Embedding of `processTasks` (lines 193–314). -/
def processTasks (tasks : List Task) (isArchive : Bool) : String :=
  (if isArchive then "" else "* Tasks\n\n") ++
  String.join ((enumOrder (buildGrouped tasks)).map (fun fg =>
    "** " ++ fg.1 ++ "\n" ++
    String.join ((enumOrder fg.2).map (fun lg =>
      "*** " ++ lg.1 ++ "\n" ++ String.join (lg.2.map (renderTask isArchive))))))

/-- The sequence of tasks in the order their entries are emitted by
`processTasks`. -/
def emissionOrder (tasks : List Task) : List Task :=
  ((enumOrder (buildGrouped tasks)).map (fun fg =>
    ((enumOrder fg.2).map (fun lg => lg.2)).flatten)).flatten

/-- `parentItems` (lines 320–325): checklist records that have a child among
the checklist records but no truthy `parentId` themselves. -/
def parentItemsOf (checklistItems : List Task) : List Task :=
  checklistItems.filter (fun item =>
    (checklistItems.any (fun child => child.parentId == item.taskId)) &&
    !(truthy item.parentId))

/-- Embedding of `getAllDescendants` (lines 330–339), with explicit fuel for
the unguarded recursion (it walks `parentId` children of the checklist items
with no cycle check). -/
def getAllDescendants : Nat → List Task → Option String → Option (List Task)
  | 0, _, _ => none
  | fuel + 1, items, parentId =>
    items.foldl (fun acc item => do
      let l ← acc
      if item.parentId == parentId then
        let ds ← getAllDescendants fuel items item.taskId
        some (l ++ item :: ds)
      else some l) (some [])

/-- JavaScript template-literal rendering of a possibly-absent field
(`undefined` prints as the text `undefined`). -/
def jsShow (o : Option String) : String :=
  match o with
  | some s => s
  | none => "undefined"

/-- The `checklistsByParent` key (line 342). -/
def checklistKey (p : Task) : String :=
  jsShow p.folderName ++ "|" ++ jsShow p.listName ++ "|" ++ jsShow p.title

/-- Object-property assignment: an existing key keeps its position and gets
the new value, a new key is appended. -/
def upsertByKey (g : List (String × Task × List Task)) (k : String)
    (v : Task × List Task) : List (String × Task × List Task) :=
  match g with
  | [] => [(k, v)]
  | (k', v') :: rest =>
    if k' == k then (k', v) :: rest else (k', v') :: upsertByKey rest k v

/-- The `checklistsByParent` object (lines 317–348): one entry per parent
checklist record, keyed by folder/list/title, holding the parent and its
full descendant list. -/
def buildChecklistsByParent (fuel : Nat) (items : List Task) :
    List Task → List (String × Task × List Task) →
    Option (List (String × Task × List Task))
  | [], acc => some acc
  | p :: rest, acc =>
    match getAllDescendants fuel items p.taskId with
    | none => none
    | some children =>
      buildChecklistsByParent fuel items rest
        (upsertByKey acc (checklistKey p) (p, children))

/-- Embedding of `renderChecklistItem` (lines 385–403), with explicit fuel
for the unguarded recursion through the `parentId` children. -/
def renderChecklistItem : Nat → List Task → Task → Nat → Option String
  | 0, _, _, _ => none
  | fuel + 1, children, item, indentLevel =>
    let indent := String.mk (List.replicate (2 * indentLevel) ' ')
    let status := if item.status == some "1" then "X" else " "
    let itemText := jsOr item.title (jsOr item.content "Unnamed item")
    let base := indent ++ "- [" ++ status ++ "] " ++ itemText ++ "\n"
    let base2 :=
      if truthy item.content && !(item.content == item.title) then
        base ++ indent ++ "  " ++ item.content.getD "" ++ "\n"
      else base
    (children.filter (fun child => child.parentId == item.taskId)).foldl
      (fun acc child => do
        let s ← acc
        let cs ← renderChecklistItem fuel children child (indentLevel + 1)
        some (s ++ cs)) (some base2)

/-- Maximal leading run of `[a-z0-9]` characters. -/
def takeAlnumLower : List Char → List Char × List Char
  | [] => ([], [])
  | c :: cs =>
    if isLowerAlnum c then
      let p := takeAlnumLower cs
      (c :: p.1, p.2)
    else ([], c :: cs)

/-- First match of the signature-extraction regex of lines 370 and 442
(`==`, one or more `[a-z0-9]`, `--`), returning the captured group. -/
def extractSignature : List Char → Option String
  | [] => none
  | c :: rest =>
    if c == '=' then
      match rest with
      | '=' :: r2 =>
        let p := takeAlnumLower r2
        if !p.1.isEmpty && ['-', '-'].isPrefixOf p.2 then some (String.mk p.1)
        else extractSignature rest
      | _ => extractSignature rest
    else extractSignature rest

/-- The tag list of a checklist note (lines 355–358): the parent's trimmed
comma-split tags, with `checklist` appended when not already present. -/
def checklistTags (parent : Task) : List String :=
  let tags := if truthy parent.tags then (jsSplit ',' (parent.tags.getD "")).map jsTrim
              else []
  if tags.contains "checklist" then tags else tags ++ ["checklist"]

/-- `new Date().toISOString().split('T')[0]`: the current UTC date. -/
def todayStr (now : Int) : String := jsSplitHead (toISOStringModel now) 'T'

/-- The main org document header (line 137). -/
def orgHeader (now : Int) : String :=
  "#+TITLE: TickTick Tasks Backup\n#+DATE: " ++ todayStr now ++ "\n\n"

/-- The archive document header (lines 188–189). -/
def archiveHeader (now : Int) : String :=
  "#+TITLE: TickTick Archived Tasks\n#+DATE: " ++ todayStr now ++ "\n\n" ++
  "* Archived Tasks\n\n"

/-- One output note descriptor (filename, content, optional timestamp the
I/O layer applies as the file's modification time). -/
structure DenoteFile where
  filename : String
  content : String
  modifiedTime : Option String
  deriving DecidableEq

/-- One checklist denote file (lines 351–422).  `none` models an uncaught
`toISOString` exception (unparseable stored date) or a non-terminating tree
walk. -/
def buildChecklistFile (fuel : Nat) (now : Int) (withSig : Bool) (sig : String)
    (entry : Task × List Task) : Option DenoteFile := do
  let parent := entry.1
  let children := entry.2
  let title := jsOr parent.title "Untitled Checklist"
  let tags := checklistTags parent
  let date := if truthy parent.createdTime then parent.createdTime
              else (match children with | [] => none | c :: _ => c.createdTime)
  let filename ← createDenoteFilename title tags date withSig sig now
  let t ← jsDateValue date now
  let identifier := denoteDateToken t ++
    (if withSig then
      match extractSignature filename.data with
      | some s => "==" ++ s
      | none => ""
     else "")
  let headPart :=
    "#+TITLE: " ++ title ++ "\n" ++
    "#+DATE: " ++ jsOr (convertDateForOrg date) (jsSlice (toISOStringModel now) 0 16) ++ "\n" ++
    "#+FILETAGS: " ++ String.join (tags.map (fun tag => ":" ++ wsToUnderscore tag)) ++ "\n" ++
    "#+IDENTIFIER: " ++ identifier ++ "\n\n"
  let headPart2 :=
    if truthy parent.content then headPart ++ parent.content.getD "" ++ "\n\n"
    else headPart
  let top := children.filter (fun child => child.parentId == parent.taskId)
  let body ← top.foldl (fun acc child => do
      let s ← acc
      let cs ← renderChecklistItem fuel children child 0
      some (s ++ cs)) (some "")
  let footer := "\n\n#+begin_comment\nSource: TickTick Checklist\n" ++
    (if truthy parent.folderName then "Folder: " ++ parent.folderName.getD "" ++ "\n" else "") ++
    (if truthy parent.listName then "List: " ++ parent.listName.getD "" ++ "\n" else "") ++
    (if truthy parent.createdTime then "Created: " ++ parent.createdTime.getD "" ++ "\n" else "") ++
    "#+end_comment\n"
  some ⟨filename, headPart2 ++ body ++ footer, date⟩

/-- One note denote file (lines 431–466). -/
def buildNoteFile (now : Int) (withSig : Bool) (sig : String) (note : Task) :
    Option DenoteFile := do
  let title := jsOr note.title "Untitled Note"
  let tags := if truthy note.tags then (jsSplit ',' (note.tags.getD "")).map jsTrim
              else []
  let filename ← createDenoteFilename title tags note.createdTime withSig sig now
  let t ← jsDateValue note.createdTime now
  let identifier := denoteDateToken t ++
    (if withSig then
      match extractSignature filename.data with
      | some s => "==" ++ s
      | none => ""
     else "")
  let contentStr :=
    "#+TITLE: " ++ title ++ "\n" ++
    "#+DATE: " ++ jsOr (convertDateForOrg note.createdTime) (jsSlice (toISOStringModel now) 0 16) ++ "\n" ++
    "#+FILETAGS: " ++ String.join (tags.map (fun tag => ":" ++ wsToUnderscore tag)) ++ "\n" ++
    "#+IDENTIFIER: " ++ identifier ++ "\n\n" ++
    (if truthy note.content then
      String.mk ((note.content.getD "").data.filter (fun c => c != '\r'))
     else "") ++
    "\n\n#+begin_comment\nSource: TickTick\n" ++
    (if truthy note.folderName then "Folder: " ++ note.folderName.getD "" ++ "\n" else "") ++
    (if truthy note.listName then "List: " ++ note.listName.getD "" ++ "\n" else "") ++
    (if truthy note.createdTime then "Created: " ++ note.createdTime.getD "" ++ "\n" else "") ++
    "#+end_comment\n"
  some ⟨filename, contentStr, note.createdTime⟩

/-- Build a list of denote files, threading the index into the signature
supply (one `Math.random` draw per file when the signature flag is set). -/
def buildFilesAux {α : Type} (f : Nat → α → Option DenoteFile) :
    Nat → List α → Option (List DenoteFile)
  | _, [] => some []
  | i, x :: xs => do
    let d ← f i x
    let rest ← buildFilesAux f (i + 1) xs
    some (d :: rest)

/-- The three outputs of `convertTickTickData`. -/
structure ConvertResult where
  orgContent : String
  archiveContent : String
  denoteFiles : List DenoteFile
  deriving DecidableEq

/-- Embedding of `convertTickTickData` (lines 136–477).  `now` models the
ambient clock (`Date.now()` / `new Date()`), `sigs` the stream of
`Math.random` signature tokens (consulted only when `withSignature` is set);
`none` models a run that throws or never terminates. -/
def convertTickTickData (fuel : Nat) (data : List Task) (withSignature : Bool)
    (now : Int) (sigs : Nat → String) : Option ConvertResult := do
  let ids ← checklistIds fuel data
  let notes := notesOf data
  let checklistItems := checklistItemsOf data ids
  let archivedTasks := archivedTasksOf data ids
  let activeTasks := activeTasksOf data ids
  let parents := parentItemsOf checklistItems
  let entries ← buildChecklistsByParent fuel checklistItems parents []
  let orderedEntries := enumOrder entries
  let checklistFiles ← buildFilesAux
    (fun i e => buildChecklistFile fuel now withSignature (sigs i) e.2) 0 orderedEntries
  let noteFiles ← buildFilesAux
    (fun i n => buildNoteFile now withSignature (sigs i) n) orderedEntries.length notes
  let orgContent := orgHeader now ++ processTasks activeTasks false
  let archiveContent :=
    if archivedTasks.length > 0 then archiveHeader now ++ processTasks archivedTasks true
    else ""
  some ⟨orgContent, archiveContent, checklistFiles ++ noteFiles⟩

/-! ### Support definitions for the claims -/

/-- The canonical org minute token built directly from UTC components:
`YYYY-MM-DD HH:MM`. -/
def orgFormat (y mo d h mi : Nat) : String :=
  String.mk (d4 y ++ '-' :: d2 mo ++ '-' :: d2 d ++ ' ' :: d2 h ++ ':' :: d2 mi)

/-- Indent depth of one rendered line when it is a checkbox line: the number
of leading two-space units preceding the `- [` checkbox marker. -/
def lineDepth (l : String) : Option Nat :=
  let sp := (l.data.takeWhile (fun c => c == ' ')).length
  if ['-', ' ', '['].isPrefixOf (l.data.drop sp) ∧ sp % 2 = 0 then some (sp / 2)
  else none

/-- The indent depths of the checkbox lines of a rendered note, in order. -/
def checkboxDepths (s : String) : List Nat :=
  (jsSplit '\n' s).filterMap lineDepth

/-- The partition property asserted by the specification: the three
classification lists are pairwise disjoint and jointly cover the batch. -/
def classificationIsPartition (data : List Task) (ids : List (Option String)) : Prop :=
  (∀ t, ¬(t ∈ notesOf data ∧ t ∈ checklistItemsOf data ids)) ∧
  (∀ t, ¬(t ∈ notesOf data ∧ t ∈ regularTasksOf data ids)) ∧
  (∀ t, ¬(t ∈ checklistItemsOf data ids ∧ t ∈ regularTasksOf data ids)) ∧
  (∀ t, t ∈ data ↔ (t ∈ notesOf data ∨ t ∈ checklistItemsOf data ids ∨ t ∈ regularTasksOf data ids))

/-- A record kind-tagged as a note that is also pulled into the checklist id
set (another record's `parentId` references it). -/
def noteA : Task := { kind := some "NOTE", taskId := some "a", title := some "NoteA" }

/-- A child record whose `parentId` references `noteA`. -/
def childB : Task := { taskId := some "b", parentId := some "a", title := some "ChildB" }

/-- The two-record batch exhibiting the notes/checklist overlap. -/
def dataAB : List Task := [noteA, childB]

/-! ### C8 -/

/-- C8: `convertDateForOrg` never throws: for falsy (absent or empty) input
it returns `null`, and for every non-empty input whose parse fails it
returns the raw text unchanged. -/
theorem convertDateForOrg_fallback (o : Option String) :
    (truthy o = false → convertDateForOrg o = none) ∧
    (∀ s, o = some s → s ≠ "" → parseJsDate s = none → convertDateForOrg o = some s) := by
  refine ⟨fun h => by simp [convertDateForOrg, h], fun s ho hs hp => ?_⟩
  subst ho
  have ht : truthy (some s) = true := by simp [truthy, hs]
  simp [convertDateForOrg, ht, hp]

/-- Witness for C8 at concrete inputs. -/
theorem convertDateForOrg_fallback_witness :
    convertDateForOrg (some "") = none ∧
    convertDateForOrg (some "not a date") = some "not a date" :=
  ⟨(convertDateForOrg_fallback (some "")).1 (by decide),
   (convertDateForOrg_fallback (some "not a date")).2 "not a date" rfl
     (by decide) (by decide)⟩

/-! ### C7 -/

/-- Counterexample for C7: an input carrying a `+02:00` offset does not keep
its local clock time (09:00); `toISOString` converts it to UTC (07:00). -/
theorem convertDateForOrg_zone_counterexample :
    convertDateForOrg (some "2025-03-10T09:00:00+02:00") = some "2025-03-10 07:00" ∧
    convertDateForOrg (some "2025-03-10T09:00:00+02:00") ≠ some "2025-03-10 09:00" := by
  constructor
  · decide
  · decide

/-- The pattern character `'T'` never equals a digit character. -/
theorem beq_T_digitChar (n : Nat) : ('T' == digitChar n) = false := by
  have h : n % 10 < 10 := Nat.mod_lt _ (by norm_num)
  have hall : ∀ k, k < 10 → ('T' == Char.ofNat (48 + k)) = false := by decide
  simpa [digitChar] using hall (n % 10) h

/-- `replace('T', ' ').slice(0, 16)` of an in-range ISO string collapses to
the canonical org minute token of the same components. -/
theorem orgToken_eq (y mo d h mi sec ms : Nat) :
    jsSlice (jsReplaceFirst (String.mk (d4 y ++ '-' :: d2 mo ++ '-' :: d2 d ++
      'T' :: d2 h ++ ':' :: d2 mi ++ ':' :: d2 sec ++ '.' :: d3 ms ++ ['Z']))
      "T" " ") 0 16 = orgFormat y mo d h mi := by
  simp only [jsSlice, jsReplaceFirst, orgFormat, d4, d2, d3]
  simp [replFirst, List.isPrefixOf, beq_T_digitChar, List.take, List.drop]

/-- C7 (amended): for every date string that parses successfully (with UTC
year in 0–9999), `convertDateForOrg` returns the token `YYYY-MM-DD HH:MM` at
minute precision built from the timestamp's UTC components — the code
converts the timestamp to UTC via `toISOString`, so an input carrying an
offset is rendered with its UTC clock time, not its local clock time. -/
theorem convertDateForOrg_utc (s : String) (t : Int)
    (y : Int) (mo d h mi sec ms : Nat)
    (hp : parseJsDate s = some t)
    (hu : utcParts t = (y, mo, d, h, mi, sec, ms))
    (hy0 : 0 ≤ y) (hy : y ≤ 9999) :
    convertDateForOrg (some s) = some (orgFormat y.toNat mo d h mi) := by
  have hs : s ≠ "" := by
    intro he
    rw [he] at hp
    have hnone : parseJsDate "" = none := by decide
    rw [hnone] at hp
    exact Option.noConfusion hp
  have ht : truthy (some s) = true := by simp [truthy, hs]
  have hiso : toISOStringModel t = String.mk (d4 y.toNat ++ '-' :: d2 mo ++ '-' :: d2 d ++
      'T' :: d2 h ++ ':' :: d2 mi ++ ':' :: d2 sec ++ '.' :: d3 ms ++ ['Z']) := by
    rw [toISOStringModel, hu]
    simp [hy0, hy]
  simp only [convertDateForOrg, ht, Bool.true_eq_false, if_false, Option.getD_some, hp,
    hiso, orgToken_eq]

/-- Witness for the amended C7 at a concrete offset-carrying input. -/
theorem convertDateForOrg_utc_witness :
    convertDateForOrg (some "2025-03-10T09:00:00+02:00") = some (orgFormat 2025 3 10 7 0) :=
  convertDateForOrg_utc "2025-03-10T09:00:00+02:00" 1741590000000 2025 3 10 7 0 0 0
    (by decide) (by decide) (by decide) (by decide)

/-! ### C3 -/

/-- C3: when the normalized start and due dates are both present (truthy) and
textually equal, the entry carries exactly one scheduling line — a SCHEDULED
line with the recurrence token space-appended only if non-null — and no
DEADLINE line; otherwise SCHEDULED (if start present) and DEADLINE (if due
present) are emitted independently, each carrying the same recurrence token. -/
theorem schedulingLines_spec (task : Task) :
    (∀ s, s ≠ "" → convertDateForOrg task.startDate = some s →
      convertDateForOrg task.dueDate = some s →
      schedulingLines task =
        [schedLineStr "SCHEDULED" s (convertRecurrenceToOrg task.repeatRule)]) ∧
    (¬(truthy (convertDateForOrg task.startDate) = true ∧
        truthy (convertDateForOrg task.dueDate) = true ∧
        convertDateForOrg task.startDate = convertDateForOrg task.dueDate) →
      schedulingLines task =
        (if truthy (convertDateForOrg task.startDate) then
          [schedLineStr "SCHEDULED" ((convertDateForOrg task.startDate).getD "")
            (convertRecurrenceToOrg task.repeatRule)]
         else []) ++
        (if truthy (convertDateForOrg task.dueDate) then
          [schedLineStr "DEADLINE" ((convertDateForOrg task.dueDate).getD "")
            (convertRecurrenceToOrg task.repeatRule)]
         else [])) := by
  constructor
  · intro s hs h1 h2
    simp [schedulingLines, h1, h2, truthy, hs]
  · intro h
    cases hb : (truthy (convertDateForOrg task.startDate) &&
        truthy (convertDateForOrg task.dueDate) &&
        (convertDateForOrg task.startDate == convertDateForOrg task.dueDate)) with
    | true =>
      exfalso
      apply h
      simpa [and_assoc] using hb
    | false => simp [schedulingLines, hb]

/-- A task whose start and due dates are the identical timestamp. -/
def taskEqualDates : Task :=
  { startDate := some "2024-01-15T09:00:00Z", dueDate := some "2024-01-15T09:00:00Z" }

/-- Witness for C3 at the specification's concrete scenario. -/
theorem schedulingLines_spec_witness :
    schedulingLines taskEqualDates =
      [schedLineStr "SCHEDULED" "2024-01-15 09:00"
        (convertRecurrenceToOrg taskEqualDates.repeatRule)] :=
  (schedulingLines_spec taskEqualDates).1 "2024-01-15 09:00"
    (by decide) (by decide) (by decide)

/-! ### C2 -/

/-- C2: every regular task with status `"2"` is excluded from the active set,
lands in the archived set, and its archive-context status keyword is DONE. -/
theorem archived_task_routing (fuel : Nat) (data : List Task)
    (ids : List (Option String)) (task : Task)
    (_hids : checklistIds fuel data = some ids)
    (hreg : task ∈ regularTasksOf data ids)
    (hst : task.status = some "2") :
    task ∉ activeTasksOf data ids ∧ task ∈ archivedTasksOf data ids ∧
    statusKeyword true task = "DONE" := by
  refine ⟨?_, ?_, ?_⟩
  · intro hmem
    rw [activeTasksOf] at hmem
    rcases List.mem_append.mp hmem with h | h
    · have h2 := (List.mem_filter.mp h).2
      rw [hst] at h2
      exact absurd h2 (by decide)
    · have h2 := (List.mem_filter.mp h).2
      rw [hst] at h2
      exact absurd h2 (by decide)
  · exact List.mem_filter.mpr ⟨hreg, by simp [hst]⟩
  · simp [statusKeyword, hst]

/-- An archived-status (status `"2"`) regular task. -/
def archTask : Task := { taskId := some "t3", status := some "2", title := some "Old" }

/-- The one-record batch holding `archTask`. -/
def dataArch : List Task := [archTask]

/-- Witness for C2 at a concrete archived task. -/
theorem archived_task_routing_witness :
    archTask ∉ activeTasksOf dataArch [] ∧ archTask ∈ archivedTasksOf dataArch [] ∧
    statusKeyword true archTask = "DONE" :=
  archived_task_routing 9 dataArch [] archTask (by decide) (by decide) rfl

/-! ### C6 -/

/-- A record whose `parentId` chain returns to itself. -/
def selfLoop : Task := { taskId := some "a", parentId := some "a" }

/-- C6 is false of the code: the descendant walks have no cycle check and no
depth bound, so on a self-referencing record they never terminate — the
fueled embeddings of `findAllDescendants` and `getAllDescendants` exhaust
every fuel. -/
theorem descendant_walk_diverges_on_cycle (fuel : Nat) :
    findAllDescendants fuel [selfLoop] (some "a") = none ∧
    getAllDescendants fuel [selfLoop] (some "a") = none := by
  induction fuel with
  | zero => exact ⟨rfl, rfl⟩
  | succ n ih =>
    constructor
    · rw [findAllDescendants]
      have hf : [selfLoop].filter (fun item => item.parentId == some "a") = [selfLoop] := by
        decide
      rw [hf]
      have hid : selfLoop.taskId = some "a" := rfl
      simp [List.foldl_cons, List.foldl_nil, hid, ih.1]
    · rw [getAllDescendants]
      have hpar : selfLoop.parentId = some "a" := rfl
      have hid : selfLoop.taskId = some "a" := rfl
      simp [List.foldl_cons, List.foldl_nil, hpar, hid, ih.2]

/-! ### C10 -/

/-- Everything already accumulated survives to the final checklist id set. -/
theorem checklistIdsAux_sub (fuel : Nat) (data : List Task) :
    ∀ rest acc ids, checklistIdsAux fuel data rest acc = some ids →
      ∀ x ∈ acc, x ∈ ids := by
  intro rest
  induction rest with
  | nil =>
    intro acc ids h x hx
    rw [checklistIdsAux] at h
    cases h
    exact hx
  | cons item tl ih =>
    intro acc ids h x hx
    rw [checklistIdsAux] at h
    by_cases hc : chkCond data item = true
    · rw [if_pos hc] at h
      by_cases htr : truthy item.taskId = true
      · rw [if_pos htr] at h
        cases hfd : findAllDescendants fuel data item.taskId with
        | none => rw [hfd] at h; exact Option.noConfusion h
        | some ds =>
          rw [hfd] at h
          exact ih _ _ h x (List.mem_append_left _ hx)
      · rw [if_neg htr] at h
        exact ih _ _ h x (List.mem_append_left _ hx)
    · rw [if_neg hc] at h
      exact ih _ _ h x hx

/-- Every not-yet-processed record passing the checklist condition gets its
`taskId` into the final id set. -/
theorem checklistIdsAux_mem (fuel : Nat) (data : List Task) :
    ∀ rest acc ids, checklistIdsAux fuel data rest acc = some ids →
      ∀ item ∈ rest, chkCond data item = true → item.taskId ∈ ids := by
  intro rest
  induction rest with
  | nil => intro acc ids _ item hmem; cases hmem
  | cons hd tl ih =>
    intro acc ids h item hmem hcond
    rw [checklistIdsAux] at h
    rcases List.mem_cons.mp hmem with rfl | hmem'
    · rw [if_pos hcond] at h
      by_cases htr : truthy item.taskId = true
      · rw [if_pos htr] at h
        cases hfd : findAllDescendants fuel data item.taskId with
        | none => rw [hfd] at h; exact Option.noConfusion h
        | some ds =>
          rw [hfd] at h
          exact checklistIdsAux_sub fuel data tl _ ids h item.taskId
            (List.mem_append_right _ (List.mem_cons_self _ _))
      · rw [if_neg htr] at h
        exact checklistIdsAux_sub fuel data tl _ ids h item.taskId
          (List.mem_append_right _ (List.mem_cons_self _ _))
    · by_cases hc : chkCond data hd = true
      · rw [if_pos hc] at h
        by_cases htr : truthy hd.taskId = true
        · rw [if_pos htr] at h
          cases hfd : findAllDescendants fuel data hd.taskId with
          | none => rw [hfd] at h; exact Option.noConfusion h
          | some ds => rw [hfd] at h; exact ih _ _ h item hmem' hcond
        · rw [if_neg htr] at h; exact ih _ _ h item hmem' hcond
      · rw [if_neg hc] at h; exact ih _ _ h item hmem' hcond

/-- C10: any record whose `taskId` is strictly equal to some record's
`parentId` — including when both are the empty string or both are absent —
is marked as a checklist item; in particular, if some record carries an empty
`parentId`, every record with an empty `taskId` is classified as a checklist
item and excluded from the regular-task set. -/
theorem strict_equality_checklist_marking (fuel : Nat) (data : List Task)
    (ids : List (Option String)) (hids : checklistIds fuel data = some ids) :
    (∀ item ∈ data, (∃ child ∈ data, child.parentId = item.taskId) →
      item.taskId ∈ ids) ∧
    ((∃ r ∈ data, r.parentId = some "") → ∀ item ∈ data, item.taskId = some "" →
      item ∈ checklistItemsOf data ids ∧ item ∉ regularTasksOf data ids) := by
  have hmain : ∀ item ∈ data, (∃ child ∈ data, child.parentId = item.taskId) →
      item.taskId ∈ ids := by
    rintro item hmem ⟨child, hcm, hceq⟩
    have hcond : chkCond data item = true := by
      rw [chkCond]
      have : data.any (fun c => c.parentId == item.taskId) = true :=
        List.any_eq_true.mpr ⟨child, hcm, by simp [hceq]⟩
      simp [this]
    exact checklistIdsAux_mem fuel data data [] ids hids item hmem hcond
  refine ⟨hmain, ?_⟩
  rintro ⟨r, hrm, hrp⟩ item him hit
  have hin : item.taskId ∈ ids := hmain item him ⟨r, hrm, by rw [hrp, hit]⟩
  have hcont : ids.contains item.taskId = true := by
    simpa using hin
  constructor
  · exact List.mem_filter.mpr ⟨him, hcont⟩
  · intro hcontra
    have h2 := (List.mem_filter.mp hcontra).2
    simp at h2
    exact h2.2 hin

/-- A record whose `taskId` is the empty string. -/
def emptyIdTask : Task := { taskId := some "", title := some "EmptyId" }

/-- A record whose `parentId` is the empty string. -/
def emptyParentTask : Task := { taskId := some "x", parentId := some "" }

/-- The batch pairing an empty `taskId` with an empty `parentId`. -/
def dataEmpty : List Task := [emptyIdTask, emptyParentTask]

/-- Witness for C10: the empty-string `parentId` record drags the
empty-string `taskId` record into the checklist set. -/
theorem strict_equality_checklist_marking_witness :
    emptyIdTask ∈ checklistItemsOf dataEmpty [some ""] ∧
    emptyIdTask ∉ regularTasksOf dataEmpty [some ""] :=
  (strict_equality_checklist_marking 9 dataEmpty [some ""] (by decide)).2
    ⟨emptyParentTask, by decide, rfl⟩ emptyIdTask (by decide) rfl

/-! ### C1 -/

/-- Counterexample for C1: on `dataAB` the three classification lists are not
a partition — `noteA` (kind-tagged NOTE and referenced by `childB.parentId`)
is in both the notes list and the checklist-items list. -/
theorem classification_not_partition :
    checklistIds 9 dataAB = some [some "a", some "b", some "b"] ∧
    ¬ classificationIsPartition dataAB [some "a", some "b", some "b"] := by
  constructor
  · decide
  · intro h
    exact h.1 noteA ⟨by decide, by decide⟩

/-- C1 (amended): the classifications cover the batch, and the checklist and
note lists are each disjoint from the regular-task list, but the notes and
checklist-items lists are not disjoint: their common records are exactly the
records kind-tagged NOTE whose `taskId` is in the checklist id set. -/
theorem classification_amended (fuel : Nat) (data : List Task)
    (ids : List (Option String)) (_hids : checklistIds fuel data = some ids) :
    (∀ t, ¬(t ∈ notesOf data ∧ t ∈ regularTasksOf data ids)) ∧
    (∀ t, ¬(t ∈ checklistItemsOf data ids ∧ t ∈ regularTasksOf data ids)) ∧
    (∀ t, t ∈ data ↔
      (t ∈ notesOf data ∨ t ∈ checklistItemsOf data ids ∨ t ∈ regularTasksOf data ids)) ∧
    (∀ t, (t ∈ notesOf data ∧ t ∈ checklistItemsOf data ids) ↔
      (t ∈ data ∧ t.kind = some "NOTE" ∧ t.taskId ∈ ids)) := by
  refine ⟨fun t => ?_, fun t => ?_, fun t => ?_, fun t => ?_⟩ <;>
    simp [notesOf, checklistItemsOf, regularTasksOf, List.mem_filter] <;> tauto

/-- Witness for the amended C1 at the concrete overlapping batch. -/
theorem classification_amended_witness :
    ¬(noteA ∈ notesOf dataAB ∧ noteA ∈ regularTasksOf dataAB [some "a", some "b", some "b"]) :=
  (classification_amended 9 dataAB [some "a", some "b", some "b"] (by decide)).1 noteA

/-! ### C4 -/

/-- The checklist root: two children, one of which has its own child. -/
def chkRoot : Task := { taskId := some "p", title := some "Root", kind := some "CHECKLIST" }

/-- First child of the root (has its own child). -/
def chkChildOne : Task := { taskId := some "c1", parentId := some "p", title := some "C1" }

/-- Second child of the root. -/
def chkChildTwo : Task := { taskId := some "c2", parentId := some "p", title := some "C2" }

/-- Grandchild: child of the root's first child. -/
def chkGrand : Task := { taskId := some "g", parentId := some "c1", title := some "G" }

/-- The four-record batch of the checklist-tree scenario. -/
def dataC4 : List Task := [chkRoot, chkChildOne, chkChildTwo, chkGrand]

/-- The denote note the converter generates for `dataC4` (at clock 0, no
signature). -/
def dataC4Content : String :=
  "#+TITLE: Root\n#+DATE: 1970-01-01T00:00\n#+FILETAGS: :checklist\n" ++
  "#+IDENTIFIER: 19700101T000000\n\n- [ ] C1\n  - [ ] G\n- [ ] C2\n\n\n" ++
  "#+begin_comment\nSource: TickTick Checklist\n#+end_comment\n"

/-- Counterexample for C4: for a root with two children, one of which has its
own child, the generated note's three checkbox lines sit at indent depths
0, 1, 0 — not 0, 1, 2: the root itself is never emitted as a checkbox line,
and the root's second child is a sibling at depth 0. -/
theorem checklist_depths_counterexample :
    (convertTickTickData 9 dataC4 false 0 (fun _ => "")).map
      (fun r => r.denoteFiles.map (fun f => checkboxDepths f.content)) = some [[0, 1, 0]] ∧
    [0, 1, 0] ≠ [0, 1, 2] := by
  constructor
  · decide
  · decide

/-- C4 (amended): rendering is a pre-order traversal with indent 2 spaces ×
depth, starting from the root's children at depth 0 (the root itself becomes
the note title, not a checkbox line); the scenario's three checkbox lines
appear in pre-order at depths 0, 1, 0. -/
theorem checklist_depths_amended :
    (convertTickTickData 9 dataC4 false 0 (fun _ => "")).map
      (fun r => r.denoteFiles.map (fun f => f.content)) = some [dataC4Content] ∧
    checkboxDepths dataC4Content = [0, 1, 0] := by
  constructor
  · decide
  · decide

/-! ### C9 -/

/-- C9 (amended): with the signature flag disabled the conversion never
consults the random signature source — two runs with the same input batch
and the same clock value are identical. -/
theorem convert_signature_independent (fuel : Nat) (data : List Task) (now : Int)
    (sigs1 sigs2 : Nat → String) :
    convertTickTickData fuel data false now sigs1 =
      convertTickTickData fuel data false now sigs2 := rfl

/-- Counterexample for C9: even with the signature flag disabled the output
is not a function of the input batch alone — the document headers embed the
current date, so two runs at different clock values (here one day apart)
differ byte-wise. -/
theorem convert_clock_dependent :
    convertTickTickData 1 [] false 0 (fun _ => "") ≠
      convertTickTickData 1 [] false 86400000 (fun _ => "") := by
  decide

/-! ### C5 -/

/-- The tasks of one (folder, list) group, in the order of the renderer's
task-list argument. -/
def groupFilter (tasks : List Task) (f l : String) : List Task :=
  tasks.filter (fun t =>
    (jsOr t.folderName "Inbox" == f) && (jsOr t.listName "Default" == l))

/-- Look one (folder, list) group up in the grouped structure. -/
def lookupGroup (g : List (String × List (String × List Task))) (f l : String) :
    Option (List Task) :=
  match g.find? (fun p => p.1 == f) with
  | some fg => (fg.2.find? (fun p => p.1 == l)).map (fun p => p.2)
  | none => none

/-- Updating a list group only appends to the looked-up list. -/
theorem find_upsertInner (l' : String) (t : Task) (l : String) :
    ∀ v : List (String × List Task),
    ((upsertInner v l' t).find? (fun p => p.1 == l)).map (fun p => p.2) =
      if l = l' then
        some ((((v.find? (fun p => p.1 == l)).map (fun p => p.2)).getD []) ++ [t])
      else (v.find? (fun p => p.1 == l)).map (fun p => p.2) := by
  intro v
  induction v with
  | nil =>
    by_cases h : l = l'
    · subst h
      simp [upsertInner, List.find?]
    · have hb : (l' == l) = false := beq_eq_false_iff_ne.mpr (Ne.symm h)
      simp [upsertInner, List.find?, hb, h]
  | cons hd tl ih =>
    obtain ⟨k, v⟩ := hd
    by_cases hk : k = l'
    · subst hk
      have hb : (k == k) = true := beq_self_eq_true k
      by_cases hl : l = k
      · subst hl
        simp [upsertInner, List.find?, hb]
      · have hb2 : (k == l) = false := beq_eq_false_iff_ne.mpr (Ne.symm hl)
        simp [upsertInner, List.find?, hb, hb2, hl]
    · have hb : (k == l') = false := beq_eq_false_iff_ne.mpr hk
      by_cases hl : l = k
      · subst hl
        simp [upsertInner, List.find?, hb, hk]
      · have hb2 : (k == l) = false := beq_eq_false_iff_ne.mpr (Ne.symm hl)
        simp only [upsertInner, hb, Bool.false_eq_true, if_false, List.find?]
        rw [hb2]
        simpa using ih

/-- Updating the grouped structure only appends to the looked-up group. -/
theorem lookup_upsert (f' l' : String) (t : Task) (f l : String) :
    ∀ g, lookupGroup (upsertGrouped g f' l' t) f l =
      if f = f' ∧ l = l' then some (((lookupGroup g f l).getD []) ++ [t])
      else lookupGroup g f l := by
  intro g
  induction g with
  | nil =>
    by_cases hf : f = f'
    · subst hf
      have hb : (f == f) = true := beq_self_eq_true f
      by_cases hl : l = l'
      · subst hl
        simp [upsertGrouped, lookupGroup, List.find?, hb]
      · have hb2 : (l' == l) = false := beq_eq_false_iff_ne.mpr (Ne.symm hl)
        simp [upsertGrouped, lookupGroup, List.find?, hb, hb2, hl]
    · have hb : (f' == f) = false := beq_eq_false_iff_ne.mpr (Ne.symm hf)
      simp [upsertGrouped, lookupGroup, List.find?, hb, hf]
  | cons hd tl ih =>
    obtain ⟨k, v⟩ := hd
    by_cases hk : k = f'
    · subst hk
      have hb : (k == k) = true := beq_self_eq_true k
      by_cases hf : f = k
      · subst hf
        simp only [upsertGrouped, hb, if_true, lookupGroup, List.find?, hb]
        rw [find_upsertInner]
        by_cases hl : l = l'
        · simp [hl]
        · simp [hl, fun h : f = f ∧ l = l' => hl h.2]
      · have hb2 : (k == f) = false := beq_eq_false_iff_ne.mpr (Ne.symm hf)
        have hne : ¬(f = k ∧ l = l') := fun h => hf h.1
        simp [upsertGrouped, lookupGroup, List.find?, hb, hb2, hne]
    · have hb : (k == f') = false := beq_eq_false_iff_ne.mpr hk
      by_cases hf : f = k
      · subst hf
        have hbf : (f == f) = true := beq_self_eq_true f
        have hne : ¬(f = f' ∧ l = l') := fun h => hk h.1
        simp [upsertGrouped, lookupGroup, List.find?, hb, hbf, hne]
      · have hb2 : (k == f) = false := beq_eq_false_iff_ne.mpr (Ne.symm hf)
        simp only [upsertGrouped, hb, Bool.false_eq_true, if_false, lookupGroup, List.find?]
        rw [hb2]
        simpa [lookupGroup] using ih

/-- The grouping fold: every (folder, list) group of the built structure is
the order-preserving filter of the remaining tasks, appended to whatever the
accumulator already held for that group. -/
theorem buildGrouped_loop (f l : String) :
    ∀ (ts : List Task) (acc : List (String × List (String × List Task))),
    lookupGroup (ts.foldl (fun g task =>
      upsertGrouped g (jsOr task.folderName "Inbox") (jsOr task.listName "Default") task)
      acc) f l =
      match lookupGroup acc f l with
      | some a => some (a ++ groupFilter ts f l)
      | none =>
        if groupFilter ts f l = [] then none else some (groupFilter ts f l) := by
  intro ts
  induction ts with
  | nil =>
    intro acc
    simp only [List.foldl_nil, groupFilter, List.filter_nil]
    cases lookupGroup acc f l <;> simp
  | cons t ts ih =>
    intro acc
    rw [List.foldl_cons, ih, lookup_upsert]
    by_cases hft : f = jsOr t.folderName "Inbox" ∧ l = jsOr t.listName "Default"
    · rw [if_pos hft]
      have hbcond : ((jsOr t.folderName "Inbox" == f) &&
          (jsOr t.listName "Default" == l)) = true := by
        rw [← hft.1, ← hft.2]
        simp
      have hfilter : groupFilter (t :: ts) f l = t :: groupFilter ts f l := by
        simp [groupFilter, List.filter_cons, hbcond]
      rw [hfilter]
      cases h : lookupGroup acc f l with
      | some a => simp
      | none => simp
    · rw [if_neg hft]
      have hbcond : ((jsOr t.folderName "Inbox" == f) &&
          (jsOr t.listName "Default" == l)) = false := by
        cases hval : ((jsOr t.folderName "Inbox" == f) &&
            (jsOr t.listName "Default" == l)) with
        | false => rfl
        | true =>
          exfalso
          apply hft
          simp only [Bool.and_eq_true, beq_iff_eq] at hval
          exact ⟨hval.1.symm, hval.2.symm⟩
      have hfilter : groupFilter (t :: ts) f l = groupFilter ts f l := by
        simp [groupFilter, List.filter_cons, hbcond]
      rw [hfilter]

/-- C5 (amended): every (folder, list) group of the grouped structure holds
exactly the matching tasks of the renderer's task-list argument, in that
argument's order; for the active document that argument is all TODO tasks in
input order followed by all DONE tasks in input order (so TODO and DONE
entries are not interleaved as in the input batch, and folders/lists are
enumerated array-index keys first, not purely in first-seen order). -/
theorem grouping_spec (tasks data : List Task) (ids : List (Option String))
    (f l : String) :
    lookupGroup (buildGrouped tasks) f l =
      (if groupFilter tasks f l = [] then none else some (groupFilter tasks f l)) ∧
    activeTasksOf data ids = todoTasksOf data ids ++ doneTasksOf data ids := by
  constructor
  · have h := buildGrouped_loop f l tasks []
    rw [buildGrouped]
    rw [h]
    rfl
  · rfl

/-- A DONE-status task appearing first in the input batch. -/
def doneFirst : Task := { taskId := some "t1", status := some "1", title := some "A" }

/-- A TODO-status task appearing second in the input batch. -/
def todoSecond : Task := { taskId := some "t2", status := some "0", title := some "B" }

/-- Batch interleaving a DONE task before a TODO task in the same group. -/
def dataC5 : List Task := [doneFirst, todoSecond]

/-- A TODO task in folder `"2"`, first in the batch. -/
def todoFolderTwo : Task := { taskId := some "u1", folderName := some "2", status := some "0" }

/-- A TODO task in folder `"1"`, second in the batch. -/
def todoFolderOne : Task := { taskId := some "u2", folderName := some "1", status := some "0" }

/-- Batch whose first-seen folder order is `"2"`, `"1"`. -/
def dataC5b : List Task := [todoFolderTwo, todoFolderOne]

/-- Counterexample for C5: in the active document the TODO task is emitted
before the DONE task although the DONE task comes first in the input batch
(no interleaving in input order); and folders named by array-index strings
are enumerated in ascending numeric order, not first-seen order. -/
theorem grouping_counterexample :
    checklistIds 9 dataC5 = some [] ∧
    regularTasksOf dataC5 [] = [doneFirst, todoSecond] ∧
    emissionOrder (activeTasksOf dataC5 []) = [todoSecond, doneFirst] ∧
    ([todoSecond, doneFirst] : List Task) ≠ [doneFirst, todoSecond] ∧
    checklistIds 9 dataC5b = some [] ∧
    (buildGrouped (activeTasksOf dataC5b [])).map (fun p => p.1) = ["2", "1"] ∧
    (enumOrder (buildGrouped (activeTasksOf dataC5b []))).map (fun p => p.1) = ["1", "2"] ∧
    (["1", "2"] : List String) ≠ ["2", "1"] := by
  refine ⟨by decide, by decide, by decide, by decide, by decide, by decide, by decide, by decide⟩

end TickTick
